import Mathlib

/-
Verification of the PSP Fee Reconciliation Engine of the
pretix-payment-fees plugin.

The development shallowly embeds the engine's core operations:

* the exact-rate fee computation of
  `pretix_payment_fees/psp/mollie_oauth_client.py` (`calculate_exact_fee`,
  `is_token_valid`) together with the fee-region → rate-category selection;
* the retry/backoff protocol of `_make_request` in
  `pretix_payment_fees/psp/mollie_client.py` and
  `pretix_payment_fees/psp/sumup_client.py`;
* the OAuth token freshness check and refresh of
  `PSPSyncService._ensure_valid_mollie_token` in
  `pretix_payment_fees/services/psp_sync.py`;
* the sync orchestrator `PSPSyncService.sync_payments`,
  `_sync_single_payment`, `_fetch_psp_data`, `_create_or_update_order_fee`
  and `_update_payment_info_data` of the same file.

Python `Decimal` amounts are modelled as rationals (`ℚ`): every arithmetic
operation performed by the engine on monetary amounts (addition,
multiplication, division by 100) is exact in `Decimal` at the engine's
magnitudes (28 significant digits), so `ℚ` reproduces the computed values.
Database tables are modelled as lists of rows, HTTP traffic and the PSP
clients as oracles (explicit response functions), and `django.utils.now()`
as an explicit parameter.
-/

namespace PretixFees

/-! ## Exact-rate fee calculation
    (`MollieOAuthClient.calculate_exact_fee`, mollie_oauth_client.py) -/

/-- A settlement rate entry: `{fixed, percentage}`.  The source keeps both
as decimal strings inside `rates_data` and converts them with
`Decimal(...)` at the point of use; we keep the converted values. -/
structure Rate where
  fixed : ℚ
  percentage : ℚ
deriving DecidableEq

/-- The slice of a Mollie payment resource that `calculate_exact_fee`
reads: `amount.value`, `details.feeRegion` (may be absent/null) and
`details.cardLabel`. -/
structure PaymentData where
  amount : ℚ
  feeRegion : Option String
  cardLabel : String
deriving DecidableEq

/-- A settlement rate table: the `rates_data` dict `description ↦ rate`,
in insertion order (Python dicts preserve it). -/
abbrev RateTable := List (String × Rate)

/-- Python truthiness of an optional string (`if not rate_description`):
`None` and `""` are falsy. -/
def pyStrTruthy : Option String → Bool
  | none => false
  | some s => s != ""

/-- `pat` occurs as a contiguous run inside `l`. -/
def charsInfixOf (pat : List Char) : List Char → Bool
  | [] => decide (pat = [])
  | c :: cs => pat.isPrefixOf (c :: cs) || charsInfixOf pat cs

/-- `"Rounding" in key` — substring test used to exclude the
"Rounding differences" accounting-adjustment cost lines. -/
def containsRounding (s : String) : Bool :=
  charsInfixOf "Rounding".toList s.toList

/-- The hard-coded `fee_region_mapping` dict of `calculate_exact_fee`. -/
def fee_region_mapping (r : String) : Option String :=
  if r = "carte-bancaire" then some "Credit card - Carte Bancaire"
  else if r = "intra-eu" then some "Credit card - Domestic consumer cards"
  else if r = "eu-card" then some "Credit card - Domestic consumer cards"
  else if r = "other" then some "Credit card - Other"
  else none

/-- Step 2 of `calculate_exact_fee`: choose the rate-table category for a
payment.  Mirrors the source exactly: mapped region first; otherwise the
`"Credit card - Carte Bancaire"` key when present; otherwise the first key
not containing `"Rounding"`; otherwise the first key of the table. -/
def select_rate_description (feeRegion : Option String) (rates : RateTable) :
    Option String :=
  let rd0 := feeRegion.bind fee_region_mapping
  if pyStrTruthy rd0 then rd0
  else if (rates.lookup "Credit card - Carte Bancaire").isSome then
    some "Credit card - Carte Bancaire"
  else
    let rd1 := (rates.find? (fun p => !containsRounding p.1)).map Prod.fst
    if pyStrTruthy rd1 then rd1
    else rates.head?.map Prod.fst

/-- `MollieOAuthClient.calculate_exact_fee` (mollie_oauth_client.py,
lines 586–679).  Returns `none` when no usable rate category exists or the
selected category is a "Rounding differences" adjustment line; otherwise
returns `fixed + amount * percentage / 100` (no rounding is applied to the
returned value; only the log message formats it with two decimals). -/
def calculate_exact_fee (pd : PaymentData) (rates : RateTable) : Option ℚ :=
  match select_rate_description pd.feeRegion rates with
  | none => none
  | some d =>
    if d = "" then none
    else
      match rates.lookup d with
      | none => none
      | some r =>
        if containsRounding d then none
        else some (r.fixed + pd.amount * r.percentage / 100)

/-! ## Gateway request retry/backoff
    (`_make_request` in mollie_client.py and sumup_client.py) -/

/-- What the HTTP layer yields for one attempt: a response with a status
code and (for success) a parsed JSON body, or a network-level exception
(e.g. `requests.exceptions.ConnectionError`) raised before any response
exists. -/
inductive HttpAttempt where
  | resp (code : Nat) (body : Nat)
  | netError
deriving DecidableEq

/-- Observable behaviour of one `_make_request` call tree: the returned
value (`none` models Python `None`), the number of HTTP requests actually
issued, and the sequence of `time.sleep` backoff delays (seconds). -/
structure ReqOutcome where
  result : Option Nat
  attempts : Nat
  waits : List Nat
deriving DecidableEq

/-- `MollieClient.MAX_RETRIES` and `SumUpClient.MAX_RETRIES`. -/
def MAX_RETRIES : Nat := 3

/-- `MollieClient.BACKOFF_FACTOR` and `SumUpClient.BACKOFF_FACTOR`. -/
def BACKOFF_FACTOR : Nat := 2

/-- `MollieClient._make_request` (mollie_client.py, lines 358–395).
`respond k` is the HTTP layer's answer to the attempt made at recursion
depth `k`.  A 429 within the retry budget sleeps `BACKOFF_FACTOR ^ retry`
and recurses; `raise_for_status` turns codes ≥ 400 into `HTTPError`, where
404/410 return `None` immediately and every other code retries with the
same backoff; any non-`HTTPError` exception returns `None` at once. -/
def mollie_make_request (respond : Nat → HttpAttempt) (retry : Nat) :
    ReqOutcome :=
  match respond retry with
  | .netError => ⟨none, 1, []⟩
  | .resp code body =>
    if code = 429 then
      if _h : retry < MAX_RETRIES then
        let r := mollie_make_request respond (retry + 1)
        ⟨r.result, r.attempts + 1, BACKOFF_FACTOR ^ retry :: r.waits⟩
      else ⟨none, 1, []⟩
    else if 400 ≤ code then
      if code = 404 ∨ code = 410 then ⟨none, 1, []⟩
      else if _h : retry < MAX_RETRIES then
        let r := mollie_make_request respond (retry + 1)
        ⟨r.result, r.attempts + 1, BACKOFF_FACTOR ^ retry :: r.waits⟩
      else ⟨none, 1, []⟩
    else ⟨some body, 1, []⟩
termination_by MAX_RETRIES - retry
decreasing_by all_goals omega

/-- `SumUpClient._make_request` (sumup_client.py, lines 221–255).
Identical to the Mollie client except that only 404 (not 410) is treated
as a terminal "not found". -/
def sumup_make_request (respond : Nat → HttpAttempt) (retry : Nat) :
    ReqOutcome :=
  match respond retry with
  | .netError => ⟨none, 1, []⟩
  | .resp code body =>
    if code = 429 then
      if _h : retry < MAX_RETRIES then
        let r := sumup_make_request respond (retry + 1)
        ⟨r.result, r.attempts + 1, BACKOFF_FACTOR ^ retry :: r.waits⟩
      else ⟨none, 1, []⟩
    else if 400 ≤ code then
      if code = 404 then ⟨none, 1, []⟩
      else if _h : retry < MAX_RETRIES then
        let r := sumup_make_request respond (retry + 1)
        ⟨r.result, r.attempts + 1, BACKOFF_FACTOR ^ retry :: r.waits⟩
      else ⟨none, 1, []⟩
    else ⟨some body, 1, []⟩
termination_by MAX_RETRIES - retry
decreasing_by all_goals omega

/-! ## OAuth token freshness and refresh
    (`MollieOAuthClient.is_token_valid`,
     `PSPSyncService._ensure_valid_mollie_token`) -/

/-- `MollieOAuthClient.is_token_valid` (mollie_oauth_client.py, lines
453–468).  Timestamps are in seconds; the 5-minute safety buffer is
`timedelta(minutes=5)` = 300 s.  A missing expiry (`None`) is invalid. -/
def is_token_valid (nowT : ℤ) (expires_at : Option ℤ) : Bool :=
  match expires_at with
  | none => false
  | some t => decide (nowT < t - 300)

/-- The Mollie OAuth slice of `PSPConfig` that
`_ensure_valid_mollie_token` reads and writes. -/
structure MollieOAuthState where
  oauth_connected : Bool
  access_token : String
  refresh_token : String
  token_expires_at : Option ℤ
deriving DecidableEq

/-- A successful refresh-token exchange response: `access_token`,
optional new `refresh_token`, and `expires_in`
(`token_data.get("expires_in", 3600)` already applied). -/
structure RefreshResponse where
  access_token : String
  refresh_token : Option String
  expires_in : ℤ
deriving DecidableEq

/-- `PSPSyncService._ensure_valid_mollie_token` (psp_sync.py, lines
98–151).  `refreshOutcome` is what `refresh_access_token` would yield
(`none` models an exception during the exchange).  Returns the access
token handed to the caller, the new credential state, and the number of
refresh-token exchanges performed. -/
def ensure_valid_mollie_token (nowT : ℤ) (cfg : MollieOAuthState)
    (refreshOutcome : Option RefreshResponse) :
    Option String × MollieOAuthState × Nat :=
  if ¬cfg.oauth_connected then (none, cfg, 0)
  else if is_token_valid nowT cfg.token_expires_at then
    (some cfg.access_token, cfg, 0)
  else
    match refreshOutcome with
    | some td =>
      let cfg2 : MollieOAuthState :=
        { cfg with
            access_token := td.access_token
            refresh_token := td.refresh_token.getD cfg.refresh_token
            token_expires_at := some (nowT + td.expires_in) }
      (some td.access_token, cfg2, 1)
    | none => (none, { cfg with oauth_connected := false }, 1)

/-! ## Sync orchestrator (`PSPSyncService`, psp_sync.py)

The Django tables are lists of rows; `pretix.base.models.OrderFee` rows
are reduced to the fields the service reads and writes.  The two PSP
clients are oracles mapping a transaction id to what
`get_transaction_details` would return.  `django.utils.timezone.now()`
(used only for the `synced_at` ISO timestamp) is the `nowIso`
parameter. -/

/-- `OrderFee.FEE_TYPE_PAYMENT` (constant of the external pretix
`OrderFee` model). -/
def FEE_TYPE_PAYMENT : String := "payment"

/-- `OrderPayment.PAYMENT_STATE_CONFIRMED` (constant of the external
pretix `OrderPayment` model). -/
def PAYMENT_STATE_CONFIRMED : String := "confirmed"

/-- An `OrderFee` row, with the fields touched by
`_create_or_update_order_fee`. -/
structure OrderFeeRow where
  order : Nat
  fee_type : String
  internal_type : String
  description : String
  value : ℚ
  tax_rate : ℚ
  tax_value : ℚ
deriving DecidableEq

/-- The fee data dict produced by a gateway client's
`get_transaction_details` (`amount_fee`, `fee_details_text`,
`amount_gross`, `amount_net`, `currency`, `settlement_id`). -/
structure FeeData where
  amount_fee : ℚ
  fee_details_text : String
  amount_gross : ℚ
  amount_net : ℚ
  currency : String
  settlement_id : String
deriving DecidableEq

/-- The `psp_fees` block `_update_payment_info_data` writes into
`payment.info_data` (Python serialises the amounts with `str`; we keep
the numeric values). -/
structure PspFeesBlock where
  gross_amount : ℚ
  settlement_amount : ℚ
  fee_amount : ℚ
  currency : String
  fee_details : String
  settlement_id : String
  synced_at : String
deriving DecidableEq

/-- The parts of `payment.info_data` the service reads: the Mollie
transaction id (`info_data["id"]`), the SumUp block
(`sumup_transaction.transaction_code` / `.id`), and the `psp_fees`
block.  A payment with empty `info_data` has all strings empty and no
`psp_fees` block. -/
structure InfoData where
  id : String
  sumup_transaction_code : String
  sumup_transaction_id : String
  psp_fees : Option PspFeesBlock
deriving DecidableEq

/-- An `OrderPayment` row as read by the service. -/
structure Payment where
  id : Nat
  order : Nat
  provider : String
  state : String
  amount : ℚ
  info_data : InfoData
deriving DecidableEq

/-- Truthiness of
`payment.info_data.get("psp_fees", {}).get("synced_at")`: a `psp_fees`
block exists and its `synced_at` is a nonempty string. -/
def syncedFlag (p : Payment) : Bool :=
  match p.info_data.psp_fees with
  | some b => b.synced_at != ""
  | none => false

/-- Transaction-id extraction of `_fetch_psp_data`: for SumUp,
`sumup_transaction.transaction_code or sumup_transaction.id`; for every
other provider, `info_data["id"]`. -/
def extract_transaction_id (p : Payment) : String :=
  if p.provider = "sumup" then
    if p.info_data.sumup_transaction_code != "" then
      p.info_data.sumup_transaction_code
    else p.info_data.sumup_transaction_id
  else p.info_data.id

/-- The providers routed to the Mollie client by `_fetch_psp_data`. -/
def mollieProviders : List String :=
  ["mollie", "mollie_bancontact", "mollie_ideal", "mollie_creditcard"]

/-- What a gateway client call can do for one payment: return a fee-data
dict, return `None` (API error or transaction not found), or raise an
exception that escapes into `sync_payments`' per-payment handler. -/
inductive ClientResult where
  | ok (fd : FeeData)
  | failed
  | raised (msg : String)
deriving DecidableEq

/-- The service's environment: which clients are configured
(`self.mollie_client` / `self.sumup_client` non-`None`) and the oracles
for their `get_transaction_details`. -/
structure SyncEnv where
  mollieConfigured : Bool
  sumupConfigured : Bool
  fetchMollie : String → ClientResult
  fetchSumup : String → ClientResult

/-- Result of `_fetch_psp_data`: `failed` models `None` (no transaction
id, or client error), `skip r` models the `{"_skip": True, "_reason": r}`
dicts, `ok fd` a real fee-data dict, `raised` a propagating exception. -/
inductive FetchResult where
  | ok (fd : FeeData)
  | skip (reason : String)
  | failed
  | raised (msg : String)
deriving DecidableEq

/-- `PSPSyncService._fetch_psp_data` (psp_sync.py, lines 267–324). -/
def fetch_psp_data (env : SyncEnv) (p : Payment) : FetchResult :=
  let tid := extract_transaction_id p
  if tid = "" then .failed
  else if p.provider ∈ mollieProviders then
    if env.mollieConfigured then
      match env.fetchMollie tid with
      | .ok fd => .ok fd
      | .failed => .failed
      | .raised m => .raised m
    else .skip "Mollie not configured"
  else if p.provider = "sumup" then
    if env.sumupConfigured then
      match env.fetchSumup tid with
      | .ok fd => .ok fd
      | .failed => .failed
      | .raised m => .raised m
    else .skip "SumUp not configured"
  else .skip ("Provider " ++ p.provider ++ " not supported")

/-- `PSPSyncResult` (psp_sync.py, lines 24–56).  `errors` holds
`(payment_id, error)` pairs as appended by `add_error`. -/
structure PSPSyncResult where
  total_payments : Nat
  synced_payments : Nat
  skipped_payments : Nat
  failed_payments : Nat
  total_fees : ℚ
  errors : List (String × String)
deriving DecidableEq

/-- `PSPSyncResult.add_success`. -/
def PSPSyncResult.add_success (r : PSPSyncResult) (fee : ℚ) : PSPSyncResult :=
  { r with
      synced_payments := r.synced_payments + 1
      total_fees := r.total_fees + fee }

/-- `PSPSyncResult.add_skip` (the reason is only logged, not stored). -/
def PSPSyncResult.add_skip (r : PSPSyncResult) (_reason : String) :
    PSPSyncResult :=
  { r with skipped_payments := r.skipped_payments + 1 }

/-- `PSPSyncResult.add_error`. -/
def PSPSyncResult.add_error (r : PSPSyncResult) (pid err : String) :
    PSPSyncResult :=
  { r with
      failed_payments := r.failed_payments + 1
      errors := r.errors ++ [(pid, err)] }

/-- The terminal outcome `_sync_single_payment` records for one payment,
with the reason/message strings it passes to the result object. -/
inductive Outcome where
  | success (fee : ℚ)
  | skipped (reason : String)
  | errored (msg : String)
deriving DecidableEq

/-- The control-flow skeleton of `_sync_single_payment` (psp_sync.py,
lines 210–265), up to but excluding the database writes: which terminal
branch the payment takes.  `successWrite` is the branch that goes on to
upsert the `OrderFee` row and the `psp_fees` annotation; none of the
branch conditions reads the `OrderFee` table. -/
inductive SyncDecision where
  | raised (msg : String)
  | skipR (reason : String)
  | errorR (msg : String)
  | successDry (fee : ℚ)
  | successWrite (fd : FeeData)
deriving DecidableEq

/-- The early-return ladder of `_sync_single_payment`: not confirmed →
skip; already synced and not `force` → skip; no PSP data → error;
`_skip` dict → skip; zero fee → skip; `dry_run` → count as synced with
no write; otherwise materialise. -/
def sync_decision (env : SyncEnv) (force dry_run : Bool) (p : Payment) :
    SyncDecision :=
  if p.state ≠ PAYMENT_STATE_CONFIRMED then
    .skipR ("Payment " ++ toString p.id ++ " not confirmed (state="
      ++ p.state ++ ")")
  else if !force && syncedFlag p then
    .skipR ("Payment " ++ toString p.id ++ " already synced")
  else
    match fetch_psp_data env p with
    | .raised m => .raised m
    | .failed =>
      .errorR "Failed to fetch PSP data (API error or transaction not found)"
    | .skip r => .skipR r
    | .ok fd =>
      if fd.amount_fee = 0 then
        .skipR ("Payment " ++ toString p.id ++ " has zero fees")
      else if dry_run then .successDry fd.amount_fee
      else .successWrite fd

/-- A row matches the upsert key of `_create_or_update_order_fee`:
`order=payment.order, fee_type=FEE_TYPE_PAYMENT,
internal_type="{provider}_fee"`. -/
def fee_matches (orderId : Nat) (itype : String) (r : OrderFeeRow) : Bool :=
  r.order == orderId && r.fee_type == FEE_TYPE_PAYMENT
    && r.internal_type == itype

/-- Python `str.replace("_", " ")` for the single-character pattern. -/
def replaceUnderscores (s : String) : String :=
  String.map (fun c => if c = '_' then ' ' else c) s

/-- Python `str.title()` over the characters: an alphabetic character is
uppercased after a non-alphabetic one and lowercased otherwise. -/
def pyTitleChars : Bool → List Char → List Char
  | _, [] => []
  | prevAlpha, c :: cs =>
    (if c.isAlpha then (if prevAlpha then c.toLower else c.toUpper) else c)
      :: pyTitleChars c.isAlpha cs

/-- Python `str.title()`. -/
def pyTitle (s : String) : String := String.mk (pyTitleChars false s.toList)

/-- The human-readable description
`f"Fees {provider.replace('_', ' ').title()}: {fee_details}"`. -/
def order_fee_description (provider details : String) : String :=
  "Fees " ++ pyTitle (replaceUnderscores provider) ++ ": " ++ details

/-- Replace the first row satisfying `m` (Django `.save()` on the row
returned by `.filter(...).first()`). -/
def update_first (m : OrderFeeRow → Bool) (f : OrderFeeRow → OrderFeeRow) :
    List OrderFeeRow → List OrderFeeRow
  | [] => []
  | x :: xs => if m x then f x :: xs else x :: update_first m f xs

/-- `PSPSyncService._create_or_update_order_fee` (psp_sync.py, lines
326–368): upsert on the key `(order, FEE_TYPE_PAYMENT,
"{provider}_fee")` — update `value` and `description` of the existing
row, or create a new row with zero tax. -/
def create_or_update_order_fee (db : List OrderFeeRow) (p : Payment)
    (fd : FeeData) : List OrderFeeRow :=
  match db.find? (fee_matches p.order (p.provider ++ "_fee")) with
  | some _ =>
    update_first (fee_matches p.order (p.provider ++ "_fee"))
      (fun r => { r with
          value := fd.amount_fee
          description := order_fee_description p.provider
            fd.fee_details_text }) db
  | none =>
    db ++ [⟨p.order, FEE_TYPE_PAYMENT, p.provider ++ "_fee",
      order_fee_description p.provider fd.fee_details_text,
      fd.amount_fee, 0, 0⟩]

/-- `PSPSyncService._update_payment_info_data` (psp_sync.py, lines
370–393): write the `psp_fees` block with `synced_at = now().isoformat()`
(`nowIso`). -/
def update_payment_info_data (nowIso : String) (p : Payment)
    (fd : FeeData) : Payment :=
  { p with
      info_data :=
        { p.info_data with
            psp_fees := some
              ⟨fd.amount_gross, fd.amount_net, fd.amount_fee, fd.currency,
               fd.fee_details_text, fd.settlement_id, nowIso⟩ } }

/-- What one `_sync_single_payment` call does: either an exception
escapes to the caller's handler, or it records exactly one outcome and
leaves the (possibly updated) payment row and `OrderFee` table. -/
inductive SyncStep where
  | raised (msg : String)
  | done (out : Outcome) (p : Payment) (db : List OrderFeeRow)
deriving DecidableEq

/-- `PSPSyncService._sync_single_payment` (psp_sync.py, lines 210–265):
the decision ladder followed by the write transaction of the
`successWrite` branch (`_create_or_update_order_fee` then
`_update_payment_info_data`). -/
def sync_single_payment (env : SyncEnv) (nowIso : String)
    (force dry_run : Bool) (p : Payment) (db : List OrderFeeRow) :
    SyncStep :=
  match sync_decision env force dry_run p with
  | .raised m => .raised m
  | .skipR r => .done (.skipped r) p db
  | .errorR m => .done (.errored m) p db
  | .successDry f => .done (.success f) p db
  | .successWrite fd =>
    .done (.success fd.amount_fee) (update_payment_info_data nowIso p fd)
      (create_or_update_order_fee db p fd)

/-- `OrderFee.objects.filter(order=..., fee_type=FEE_TYPE_PAYMENT,
internal_type=f"{provider}_fee").exists()` — the pre-filter test of
`sync_payments`. -/
def hasProviderFee (db : List OrderFeeRow) (p : Payment) : Bool :=
  db.any (fee_matches p.order (p.provider ++ "_fee"))

/-- The per-payment loop of `sync_payments` (psp_sync.py, lines
200–206).  `excl p` is true for payments removed by the
already-synced pre-filter; they are carried through unchanged and never
processed.  Returns the final result object, the payment rows after the
run, and the final `OrderFee` table. -/
def sync_loop (env : SyncEnv) (nowIso : String) (force dry_run : Bool)
    (excl : Payment → Bool) :
    List Payment → List OrderFeeRow → PSPSyncResult →
      PSPSyncResult × List Payment × List OrderFeeRow
  | [], db, res => (res, [], db)
  | p :: rest, db, res =>
    if excl p then
      let t := sync_loop env nowIso force dry_run excl rest db res
      (t.1, p :: t.2.1, t.2.2)
    else
      match sync_single_payment env nowIso force dry_run p db with
      | .raised m =>
        let t := sync_loop env nowIso force dry_run excl rest db
          (res.add_error (toString p.id) ("Unexpected error: " ++ m))
        (t.1, p :: t.2.1, t.2.2)
      | .done out p2 db2 =>
        let res2 :=
          match out with
          | .success f => res.add_success f
          | .skipped r => res.add_skip r
          | .errored m => res.add_error (toString p.id) m
        let t := sync_loop env nowIso force dry_run excl rest db2 res2
        (t.1, p2 :: t.2.1, t.2.2)

/-- The pre-filter predicate of `sync_payments` (psp_sync.py, lines
172–190): with `skip_already_synced` and not `force`, payments whose
order already has the provider's `OrderFee` are removed from the batch
before any processing (the test runs against the table as it is at call
time). -/
def sync_excluded (skip_already_synced force : Bool)
    (db : List OrderFeeRow) (p : Payment) : Bool :=
  skip_already_synced && !force && hasProviderFee db p

/-- `PSPSyncService.sync_payments` (psp_sync.py, lines 153–208):
pre-filter, then `total_payments = len(payments)` on the filtered batch,
then the per-payment loop with the per-payment exception handler. -/
def sync_payments (env : SyncEnv) (nowIso : String)
    (payments : List Payment) (force dry_run skip_already_synced : Bool)
    (db : List OrderFeeRow) :
    PSPSyncResult × List Payment × List OrderFeeRow :=
  sync_loop env nowIso force dry_run
    (sync_excluded skip_already_synced force db) payments db
    { total_payments := (payments.filter
        (fun p => !sync_excluded skip_already_synced force db p)).length
      synced_payments := 0
      skipped_payments := 0
      failed_payments := 0
      total_fees := 0
      errors := [] }

/-- Ghost observation: the terminal outcome of each input payment in
order (`none` for payments removed by the pre-filter), with the same
state threading as `sync_loop`. -/
def sync_outcomes (env : SyncEnv) (nowIso : String) (force dry_run : Bool)
    (excl : Payment → Bool) :
    List Payment → List OrderFeeRow → List (Option Outcome)
  | [], _ => []
  | p :: rest, db =>
    if excl p then
      none :: sync_outcomes env nowIso force dry_run excl rest db
    else
      match sync_single_payment env nowIso force dry_run p db with
      | .raised m =>
        some (.errored ("Unexpected error: " ++ m))
          :: sync_outcomes env nowIso force dry_run excl rest db
      | .done out _ db2 =>
        some out :: sync_outcomes env nowIso force dry_run excl rest db2

/-- Ghost observation: the payments for which `_fetch_psp_data` is
actually invoked (those that reach past the confirmed / already-synced
guards), with the same state threading as `sync_loop`. -/
def sync_fetched (env : SyncEnv) (nowIso : String) (force dry_run : Bool)
    (excl : Payment → Bool) :
    List Payment → List OrderFeeRow → List Payment
  | [], _ => []
  | p :: rest, db =>
    if excl p then sync_fetched env nowIso force dry_run excl rest db
    else
      let tail :=
        match sync_single_payment env nowIso force dry_run p db with
        | .raised _ => sync_fetched env nowIso force dry_run excl rest db
        | .done _ _ db2 => sync_fetched env nowIso force dry_run excl rest db2
      if p.state = PAYMENT_STATE_CONFIRMED ∧ ¬(!force && syncedFlag p) then
        p :: tail
      else tail

/-- Count of `success` outcomes. -/
def outSuccessCount (l : List (Option Outcome)) : Nat :=
  l.countP (fun o => match o with | some (.success _) => true | _ => false)

/-- Count of `skipped` outcomes. -/
def outSkipCount (l : List (Option Outcome)) : Nat :=
  l.countP (fun o => match o with | some (.skipped _) => true | _ => false)

/-- Count of `errored` outcomes. -/
def outErrorCount (l : List (Option Outcome)) : Nat :=
  l.countP (fun o => match o with | some (.errored _) => true | _ => false)

/-- Count of processed (non-pre-filtered) payments. -/
def outProcessedCount (l : List (Option Outcome)) : Nat :=
  l.countP (fun o => o.isSome)

/-- Sum of the fee amounts of the `success` outcomes. -/
def outFees (l : List (Option Outcome)) : ℚ :=
  (l.map (fun o => match o with | some (.success f) => f | _ => 0)).sum


/-- A service environment whose Mollie client is configured but whose
every fetch fails (models e.g. an endpoint stuck on HTTP 429, after the
retry cap `get_transaction_details` returns `None`). -/
def envAllFailed : SyncEnv :=
  ⟨true, false, fun _ => .failed, fun _ => .failed⟩

/-- A fee-data dict with a fee of `5.00`. -/
def feeFive : FeeData := ⟨5, "Mollie fee", 20, 15, "EUR", "stl_1"⟩

/-- A service environment whose Mollie client always returns a fee of
`5.00` for any transaction. -/
def envFeeFive : SyncEnv :=
  ⟨true, false, fun _ => .ok feeFive, fun _ => .failed⟩

/-- A fee-data dict with a computed fee of exactly zero. -/
def feeZero : FeeData := ⟨0, "Mollie fee", 20, 20, "EUR", ""⟩

/-- A service environment whose Mollie client always returns a computed
fee of exactly zero. -/
def envFeeZero : SyncEnv :=
  ⟨true, false, fun _ => .ok feeZero, fun _ => .failed⟩

/-- A confirmed, not-yet-synced Mollie payment. -/
def payMollie : Payment :=
  ⟨1, 1, "mollie", PAYMENT_STATE_CONFIRMED, 20, ⟨"tr_1", "", "", none⟩⟩

/-- An `OrderFee` table already holding the provider fee row of
`payMollie`'s order. -/
def dbWithMollieFee : List OrderFeeRow :=
  [⟨1, FEE_TYPE_PAYMENT, "mollie_fee", "Fees Mollie: old", 3, 0, 0⟩]

/-- How the second of two identical non-`force` sync runs reports a
payment, as a function of its outcome in the first run: a payment synced
by the first run is reported `Skipped("Payment {id} already synced")`,
every other outcome repeats itself. -/
def alreadySyncedTransform (x : Payment × Option Outcome) : Option Outcome :=
  match x.2 with
  | some (.success _) =>
    some (.skipped ("Payment " ++ toString x.1.id ++ " already synced"))
  | o => o

/-! ## Theorems -/

/-- The four values of `fee_region_mapping` are nonempty strings. -/
theorem fee_region_mapping_ne_empty (fr d : String)
    (h : fee_region_mapping fr = some d) : d ≠ "" := by
  unfold fee_region_mapping at h
  split at h <;> [skip; split at h] <;> [skip; skip; split at h] <;>
    [skip; skip; skip; split at h] <;> simp_all <;> intro hc <;>
    rw [← h] at hc <;> exact absurd hc (by decide)

/-- C1 (amended): for a payment whose `feeRegion` maps to a rate category
present in the settlement rate table (and not a "Rounding" adjustment
line), `calculate_exact_fee` returns exactly
`fixed + amount * percentage / 100`, with no rounding applied to the
returned value; in particular, for rate `{fixed: 0.25, percentage: 1.2}`
and amount `20.00` the returned fee is exactly `0.49`. -/
theorem calculate_exact_fee_exact (amount : ℚ) (lbl fr d : String) (r : Rate)
    (rates : RateTable)
    (hmap : fee_region_mapping fr = some d)
    (hlook : rates.lookup d = some r)
    (hnr : containsRounding d = false) :
    calculate_exact_fee ⟨amount, some fr, lbl⟩ rates
        = some (r.fixed + amount * r.percentage / 100)
    ∧ calculate_exact_fee ⟨20, some "carte-bancaire", ""⟩
        [("Credit card - Carte Bancaire", ⟨1/4, 6/5⟩)] = some (49/100) := by
  have hgen : ∀ (amount : ℚ) (lbl fr d : String) (r : Rate)
      (rates : RateTable), fee_region_mapping fr = some d →
      rates.lookup d = some r → containsRounding d = false →
      calculate_exact_fee ⟨amount, some fr, lbl⟩ rates
        = some (r.fixed + amount * r.percentage / 100) := by
    intro amount lbl fr d r rates hmap hlook hnr
    have hne : d ≠ "" := fee_region_mapping_ne_empty fr d hmap
    simp [calculate_exact_fee, select_rate_description, hmap, pyStrTruthy,
      hne, hlook, hnr]
  refine ⟨hgen amount lbl fr d r rates hmap hlook hnr, ?_⟩
  rw [hgen 20 "" "carte-bancaire" "Credit card - Carte Bancaire"
    ⟨1/4, 6/5⟩ [("Credit card - Carte Bancaire", ⟨1/4, 6/5⟩)] rfl rfl rfl]
  norm_num

/-- Witness for C1: the spec's own example, rate
`{fixed: 0.25, percentage: 1.2}` and amount `20.00` give exactly `0.49`. -/
theorem calculate_exact_fee_exact_witness :
    fee_region_mapping "carte-bancaire" = some "Credit card - Carte Bancaire"
    ∧ calculate_exact_fee ⟨20, some "carte-bancaire", ""⟩
        [("Credit card - Carte Bancaire", ⟨1/4, 6/5⟩)] = some (49/100) :=
  ⟨by decide,
   (calculate_exact_fee_exact 20 "" "carte-bancaire"
      "Credit card - Carte Bancaire" ⟨1/4, 6/5⟩
      [("Credit card - Carte Bancaire", ⟨1/4, 6/5⟩)]
      rfl rfl rfl).2⟩

/-- Counterexample for C1 as stated: with rate
`{fixed: 0.25, percentage: 1.2}` and amount `20.01` the function returns
`0.49012`, which is not rounded to two-decimal (currency-minor-unit)
precision: it differs from `0.49`, the rounding of the exact value. -/
theorem calculate_exact_fee_not_rounded_cex :
    calculate_exact_fee ⟨2001/100, some "carte-bancaire", ""⟩
        [("Credit card - Carte Bancaire", ⟨1/4, 6/5⟩)] = some (12253/25000)
    ∧ (12253 : ℚ)/25000 ≠ 49/100 := by
  constructor
  · show some ((1:ℚ)/4 + 2001/100 * (6/5) / 100) = some (12253/25000)
    norm_num
  · norm_num

/-- C5: whenever the category selection step picks a rate-table label
carrying the accounting-adjustment marker `"Rounding"`, the exact-rate
calculation returns no fee at all (`none`) rather than a computed value,
so a "Rounding differences" line is never used as the applicable rate. -/
theorem rounding_category_gives_no_fee (pd : PaymentData) (rates : RateTable)
    (d : String)
    (hsel : select_rate_description pd.feeRegion rates = some d)
    (hround : containsRounding d = true) :
    calculate_exact_fee pd rates = none := by
  unfold calculate_exact_fee
  rw [hsel]
  by_cases he : d = ""
  · simp [he]
  · simp only [he, if_false]
    cases hl : rates.lookup d <;> simp [hround]

/-- Witness for C5: a rate table whose only category is the
"Rounding differences" adjustment line yields no fee. -/
theorem rounding_category_gives_no_fee_witness :
    select_rate_description none [("Rounding differences", ⟨0, 0⟩)]
        = some "Rounding differences"
    ∧ containsRounding "Rounding differences" = true
    ∧ calculate_exact_fee ⟨10, none, ""⟩ [("Rounding differences", ⟨0, 0⟩)]
        = none :=
  ⟨by decide, by decide,
   rounding_category_gives_no_fee ⟨10, none, ""⟩
     [("Rounding differences", ⟨0, 0⟩)] "Rounding differences"
     (by decide) (by decide)⟩


/-- Powers of two used by the backoff: `2 ^ 0 = 1`, `2 ^ 1 = 2`,
`2 ^ 2 = 4`. -/
theorem backoff_pows :
    BACKOFF_FACTOR ^ 0 = 1 ∧ BACKOFF_FACTOR ^ 1 = 2
      ∧ BACKOFF_FACTOR ^ 2 = 4 := by
  refine ⟨rfl, rfl, rfl⟩

/-- C4 counterexample: against an endpoint that always answers HTTP 429
the Mollie client issues 4 HTTP attempts (the initial one plus
`MAX_RETRIES` retries), not exactly 3 as claimed. -/
theorem always_429_attempts_cex :
    (mollie_make_request (fun _ => .resp 429 0) 0).attempts = 4
    ∧ (4 : Nat) ≠ 3 := by
  have h : mollie_make_request (fun _ => .resp 429 0) 0
      = ⟨none, 4, [1, 2, 4]⟩ := by
    simp [mollie_make_request, MAX_RETRIES, BACKOFF_FACTOR]
  exact ⟨by rw [h], by decide⟩

/-- C4 (amended): against an endpoint that always answers HTTP 429, both
clients sleep `BACKOFF_FACTOR ^ retryCount` seconds between consecutive
attempts (1 s, 2 s, 4 s), make exactly `MAX_RETRIES + 1 = 4` attempts in
total, and then return `None` (a transient failure, not an exception);
and in the orchestrator a payment whose fetch fails this way records one
`errored` outcome while the remaining payments of the batch are still
processed. -/
theorem always_429_backoff_bound (env : SyncEnv) (nowIso : String)
    (dry : Bool) (excl : Payment → Bool) (p : Payment)
    (rest : List Payment) (db : List OrderFeeRow)
    (hx : excl p = false)
    (hd : sync_decision env false dry p = .errorR
      "Failed to fetch PSP data (API error or transaction not found)") :
    mollie_make_request (fun _ => .resp 429 0) 0
      = ⟨none, MAX_RETRIES + 1, [1, 2, 4]⟩
    ∧ sumup_make_request (fun _ => .resp 429 0) 0
      = ⟨none, MAX_RETRIES + 1, [1, 2, 4]⟩
    ∧ sync_outcomes env nowIso false dry excl (p :: rest) db
      = some (.errored
            "Failed to fetch PSP data (API error or transaction not found)")
          :: sync_outcomes env nowIso false dry excl rest db := by
  refine ⟨?_, ?_, ?_⟩
  · simp [mollie_make_request, MAX_RETRIES, BACKOFF_FACTOR]
  · simp [sumup_make_request, MAX_RETRIES, BACKOFF_FACTOR]
  · simp [sync_outcomes, hx, sync_single_payment, hd]

/-- Witness for C4: the always-429 bound applied to a confirmed Mollie
payment whose client fetch fails, in a one-payment batch followed by an
empty rest. -/
theorem always_429_backoff_bound_witness :
    (fun _ => false : Payment → Bool) payMollie = false
    ∧ sync_decision envAllFailed false false payMollie = .errorR
        "Failed to fetch PSP data (API error or transaction not found)"
    ∧ (mollie_make_request (fun _ => .resp 429 0) 0
        = ⟨none, MAX_RETRIES + 1, [1, 2, 4]⟩
      ∧ sumup_make_request (fun _ => .resp 429 0) 0
        = ⟨none, MAX_RETRIES + 1, [1, 2, 4]⟩
      ∧ sync_outcomes envAllFailed "T" false false (fun _ => false)
          [payMollie] []
        = some (.errored
              "Failed to fetch PSP data (API error or transaction not found)")
            :: sync_outcomes envAllFailed "T" false false (fun _ => false)
              [] []) :=
  ⟨rfl, rfl,
   always_429_backoff_bound envAllFailed "T" false (fun _ => false)
     payMollie [] [] rfl rfl⟩

/-- C7 counterexample: a network-level exception (e.g. a connection
error) is answered by a single attempt with no backoff sleep, while an
HTTP 500 is retried up to the cap — the two are not handled "likewise"
as the claim states. -/
theorem net_error_not_retried_cex :
    mollie_make_request (fun _ => .netError) 0 = ⟨none, 1, []⟩
    ∧ mollie_make_request (fun _ => .resp 500 0) 0 = ⟨none, 4, [1, 2, 4]⟩ := by
  constructor
  · simp [mollie_make_request]
  · simp [mollie_make_request, MAX_RETRIES, BACKOFF_FACTOR]

/-- C7 (amended): an HTTP error status other than 429/404/410 is retried
with the same exponential backoff up to the same cap (4 attempts, waits
1 s, 2 s, 4 s) before the request surfaces as a transient failure
(`None`); a network-level exception, however, is not retried — it
returns `None` after a single attempt with no backoff. -/
theorem http_error_retried_net_error_not (code body : Nat)
    (h4 : 400 ≤ code) (h429 : code ≠ 429) (h404 : code ≠ 404)
    (h410 : code ≠ 410) :
    mollie_make_request (fun _ => .resp code body) 0 = ⟨none, 4, [1, 2, 4]⟩
    ∧ sumup_make_request (fun _ => .resp code body) 0 = ⟨none, 4, [1, 2, 4]⟩
    ∧ mollie_make_request (fun _ => .netError) 0 = ⟨none, 1, []⟩
    ∧ sumup_make_request (fun _ => .netError) 0 = ⟨none, 1, []⟩ := by
  refine ⟨?_, ?_, by simp [mollie_make_request],
    by simp [sumup_make_request]⟩
  · simp [mollie_make_request, MAX_RETRIES, BACKOFF_FACTOR, h4, h429,
      h404, h410]
  · simp [sumup_make_request, MAX_RETRIES, BACKOFF_FACTOR, h4, h429, h404]

/-- Witness for C7: the retry policy applied at status code 500. -/
theorem http_error_retried_witness :
    (400 ≤ 500 ∧ 500 ≠ 429 ∧ 500 ≠ 404 ∧ 500 ≠ 410)
    ∧ mollie_make_request (fun _ => .resp 500 0) 0 = ⟨none, 4, [1, 2, 4]⟩
    ∧ mollie_make_request (fun _ => .netError) 0 = ⟨none, 1, []⟩ :=
  ⟨⟨by decide, by decide, by decide, by decide⟩,
   (http_error_retried_net_error_not 500 0 (by decide) (by decide)
     (by decide) (by decide)).1,
   (http_error_retried_net_error_not 500 0 (by decide) (by decide)
     (by decide) (by decide)).2.2.1⟩

/-- C6: with a connected credential whose stored expiry lies more than
the 5-minute buffer in the future, `_ensure_valid_mollie_token` returns
the stored access token and leaves the credential state untouched with
zero refresh-token exchanges; in particular a token expiring in 10
minutes causes no refresh call, while one expiring in 2 minutes causes
exactly one refresh-token exchange. -/
theorem fresh_token_noop (nowT : ℤ) (cfg : MollieOAuthState)
    (refreshOutcome : Option RefreshResponse) (t : ℤ)
    (hc : cfg.oauth_connected = true)
    (he : cfg.token_expires_at = some t)
    (hfresh : nowT + 300 < t) :
    ensure_valid_mollie_token nowT cfg refreshOutcome
      = (some cfg.access_token, cfg, 0)
    ∧ (∀ (cfg2 : MollieOAuthState) (ro : Option RefreshResponse),
        cfg2.oauth_connected = true →
        cfg2.token_expires_at = some (nowT + 600) →
        (ensure_valid_mollie_token nowT cfg2 ro).2.2 = 0)
    ∧ (∀ (cfg2 : MollieOAuthState) (ro : Option RefreshResponse),
        cfg2.oauth_connected = true →
        cfg2.token_expires_at = some (nowT + 120) →
        (ensure_valid_mollie_token nowT cfg2 ro).2.2 = 1) := by
  refine ⟨?_, ?_, ?_⟩
  · have hv : is_token_valid nowT cfg.token_expires_at = true := by
      simp [is_token_valid, he]; omega
    simp [ensure_valid_mollie_token, hc, hv]
  · intro cfg2 ro hc2 he2
    have hv : is_token_valid nowT cfg2.token_expires_at = true := by
      simp [is_token_valid, he2]; omega
    simp [ensure_valid_mollie_token, hc2, hv]
  · intro cfg2 ro hc2 he2
    have hv : is_token_valid nowT cfg2.token_expires_at = false := by
      simp only [is_token_valid, he2, decide_eq_false_iff_not, not_lt]
      omega
    cases ro <;> simp [ensure_valid_mollie_token, hc2, hv]

/-- Witness for C6: at `now = 0`, a connected credential expiring at
`t = 601 s` (more than 5 minutes away) is returned unchanged with no
refresh call. -/
theorem fresh_token_noop_witness :
    (⟨true, "tok", "ref", some 601⟩ : MollieOAuthState).oauth_connected
        = true
    ∧ (⟨true, "tok", "ref", some 601⟩ :
        MollieOAuthState).token_expires_at = some 601
    ∧ (0 : ℤ) + 300 < 601
    ∧ ensure_valid_mollie_token 0 ⟨true, "tok", "ref", some 601⟩ none
        = (some "tok", ⟨true, "tok", "ref", some 601⟩, 0) :=
  ⟨rfl, rfl, by norm_num,
   (fresh_token_noop 0 ⟨true, "tok", "ref", some 601⟩ none 601 rfl rfl
     (by norm_num)).1⟩


/-- `update_first` keeps the list length. -/
theorem update_first_length (m : OrderFeeRow → Bool)
    (f : OrderFeeRow → OrderFeeRow) (l : List OrderFeeRow) :
    (update_first m f l).length = l.length := by
  induction l with
  | nil => rfl
  | cons x xs ih =>
    unfold update_first
    by_cases hx : m x <;> simp [hx, ih]

/-- `update_first` does not change the count of any predicate the
update function preserves. -/
theorem countP_update_first (m : OrderFeeRow → Bool)
    (f : OrderFeeRow → OrderFeeRow) (q : OrderFeeRow → Bool)
    (hq : ∀ r, q (f r) = q r) (l : List OrderFeeRow) :
    (update_first m f l).countP q = l.countP q := by
  induction l with
  | nil => rfl
  | cons x xs ih =>
    unfold update_first
    by_cases hx : m x <;> simp [hx, List.countP_cons, ih, hq]

/-- `update_first` maps the first matching row through `f` when `f`
preserves the match predicate. -/
theorem find?_update_first (m : OrderFeeRow → Bool)
    (f : OrderFeeRow → OrderFeeRow) (hm : ∀ r, m (f r) = m r)
    (l : List OrderFeeRow) (r : OrderFeeRow) (h : l.find? m = some r) :
    (update_first m f l).find? m = some (f r) := by
  induction l with
  | nil => simp at h
  | cons x xs ih =>
    unfold update_first
    by_cases hx : m x
    · rw [List.find?_cons_of_pos _ hx] at h
      obtain rfl : x = r := by injection h
      simp [List.find?_cons_of_pos, hm, hx]
    · rw [List.find?_cons_of_neg _ hx] at h
      simp only [if_neg hx]
      rw [List.find?_cons_of_neg _ hx]
      exact ih h

/-- A found row witnesses a positive match count. -/
theorem countP_pos_of_find? (m : OrderFeeRow → Bool)
    (l : List OrderFeeRow) (r : OrderFeeRow) (h : l.find? m = some r) :
    0 < l.countP m := by
  rw [List.countP_pos_iff]
  exact ⟨r, List.mem_of_find?_eq_some h, List.find?_some h⟩

/-- No match found means a zero match count. -/
theorem countP_zero_of_find?_none (m : OrderFeeRow → Bool)
    (l : List OrderFeeRow) (h : l.find? m = none) :
    l.countP m = 0 := by
  rw [List.countP_eq_zero]
  intro a ha
  exact List.find?_eq_none.mp h a ha

/-- C2: `_create_or_update_order_fee` is an upsert on the key
`(order, FEE_TYPE_PAYMENT, "{provider}_fee")`.  Starting from a table
holding at most one matching row, after the operation exactly one
matching row exists; when a row already existed (in particular on a
forced resync with a changed upstream fee) its `value` and `description`
are overwritten in place and the table length is unchanged; a row is
appended only when none existed; and the at-most-one invariant is
preserved for every key. -/
theorem order_fee_upsert (db : List OrderFeeRow) (p : Payment)
    (fd : FeeData)
    (h1 : db.countP (fee_matches p.order (p.provider ++ "_fee")) ≤ 1) :
    (create_or_update_order_fee db p fd).countP
        (fee_matches p.order (p.provider ++ "_fee")) = 1
    ∧ (∀ r, db.find? (fee_matches p.order (p.provider ++ "_fee")) = some r →
        (create_or_update_order_fee db p fd).length = db.length
        ∧ (create_or_update_order_fee db p fd).find?
            (fee_matches p.order (p.provider ++ "_fee"))
          = some { r with
              value := fd.amount_fee
              description :=
                order_fee_description p.provider fd.fee_details_text })
    ∧ (db.find? (fee_matches p.order (p.provider ++ "_fee")) = none →
        create_or_update_order_fee db p fd
          = db ++ [⟨p.order, FEE_TYPE_PAYMENT, p.provider ++ "_fee",
              order_fee_description p.provider fd.fee_details_text,
              fd.amount_fee, 0, 0⟩])
    ∧ (∀ oid it, db.countP (fee_matches oid it) ≤ 1 →
        (create_or_update_order_fee db p fd).countP (fee_matches oid it)
          ≤ 1) := by
  have hpres : ∀ (oid : Nat) (it : String) (r : OrderFeeRow),
      fee_matches oid it
          { r with
              value := fd.amount_fee
              description :=
                order_fee_description p.provider fd.fee_details_text }
        = fee_matches oid it r := fun _ _ _ => rfl
  cases hfind : db.find? (fee_matches p.order (p.provider ++ "_fee")) with
  | some r =>
    have hdb2 : create_or_update_order_fee db p fd
        = update_first (fee_matches p.order (p.provider ++ "_fee"))
            (fun r => { r with
              value := fd.amount_fee
              description :=
                order_fee_description p.provider fd.fee_details_text }) db := by
      unfold create_or_update_order_fee
      rw [hfind]
    have hcnt : (create_or_update_order_fee db p fd).countP
        (fee_matches p.order (p.provider ++ "_fee"))
        = db.countP (fee_matches p.order (p.provider ++ "_fee")) := by
      rw [hdb2]
      exact countP_update_first _ _ _ (hpres _ _) db
    have hpos := countP_pos_of_find? _ _ _ hfind
    refine ⟨by omega, ?_, ?_, ?_⟩
    · intro r2 hr2
      obtain rfl : r = r2 := by injection hr2
      constructor
      · rw [hdb2]; exact update_first_length _ _ db
      · rw [hdb2]
        exact find?_update_first _ _ (hpres _ _) db r hfind
    · intro h
      exact Option.noConfusion h
    · intro oid it hle
      have heq : (create_or_update_order_fee db p fd).countP
          (fee_matches oid it) = db.countP (fee_matches oid it) := by
        rw [hdb2]
        exact countP_update_first _ _ _ (hpres _ _) db
      omega
  | none =>
    have hzero := countP_zero_of_find?_none _ _ hfind
    have hdb2 : create_or_update_order_fee db p fd
        = db ++ [⟨p.order, FEE_TYPE_PAYMENT, p.provider ++ "_fee",
            order_fee_description p.provider fd.fee_details_text,
            fd.amount_fee, 0, 0⟩] := by
      unfold create_or_update_order_fee
      rw [hfind]
    have hrow : fee_matches p.order (p.provider ++ "_fee")
        ⟨p.order, FEE_TYPE_PAYMENT, p.provider ++ "_fee",
          order_fee_description p.provider fd.fee_details_text,
          fd.amount_fee, 0, 0⟩ = true := by
      simp [fee_matches]
    refine ⟨?_, ?_, fun _ => hdb2, ?_⟩
    · rw [hdb2, List.countP_append]
      simp [List.countP_cons, hrow, hzero]
    · intro r2 hr2
      exact Option.noConfusion hr2
    · intro oid it hle
      rw [hdb2, List.countP_append]
      by_cases hrow2 : fee_matches oid it
          ⟨p.order, FEE_TYPE_PAYMENT, p.provider ++ "_fee",
            order_fee_description p.provider fd.fee_details_text,
            fd.amount_fee, 0, 0⟩ = true
      · have hparts : p.order = oid ∧ p.provider ++ "_fee" = it := by
          have hthis := hrow2
          simp [fee_matches] at hthis
          exact ⟨hthis.1, hthis.2⟩
        have hsame : db.countP (fee_matches oid it) = 0 := by
          rw [← hparts.1, ← hparts.2]
          exact hzero
        simp [List.countP_cons, hrow2, hsame]
      · simp only [Bool.not_eq_true] at hrow2
        simp [List.countP_cons, hrow2]
        omega

/-- Witness for C2: upserting into an empty table creates exactly one
matching row. -/
theorem order_fee_upsert_witness :
    ([] : List OrderFeeRow).countP
        (fee_matches payMollie.order (payMollie.provider ++ "_fee")) ≤ 1
    ∧ (create_or_update_order_fee [] payMollie feeFive).countP
        (fee_matches payMollie.order (payMollie.provider ++ "_fee")) = 1 :=
  ⟨by decide,
   (order_fee_upsert [] payMollie feeFive (by decide)).1⟩


/-- C8: a confirmed, not-yet-synced payment whose gateway client returns
a computed fee of exactly zero is recorded as skipped ("zero fees"), with
the payment row (hence its `psp_fees` annotation) and the `OrderFee`
table both left untouched — a zero-value fee record is never
materialised. -/
theorem zero_fee_no_record (env : SyncEnv) (nowIso : String)
    (force dry : Bool) (p : Payment) (db : List OrderFeeRow) (fd : FeeData)
    (hstate : p.state = PAYMENT_STATE_CONFIRMED)
    (hns : syncedFlag p = false)
    (hfetch : fetch_psp_data env p = .ok fd)
    (hzero : fd.amount_fee = 0) :
    sync_single_payment env nowIso force dry p db
      = .done (.skipped ("Payment " ++ toString p.id ++ " has zero fees"))
          p db := by
  unfold sync_single_payment sync_decision
  simp [hstate, hns, hfetch, hzero]

/-- Witness for C8: the zero-fee environment on a confirmed Mollie
payment leaves the empty fee table empty and skips the payment. -/
theorem zero_fee_no_record_witness :
    payMollie.state = PAYMENT_STATE_CONFIRMED
    ∧ syncedFlag payMollie = false
    ∧ fetch_psp_data envFeeZero payMollie = .ok feeZero
    ∧ feeZero.amount_fee = 0
    ∧ sync_single_payment envFeeZero "T" false false payMollie []
      = .done (.skipped ("Payment " ++ toString payMollie.id
          ++ " has zero fees")) payMollie [] :=
  ⟨rfl, rfl, rfl, rfl,
   zero_fee_no_record envFeeZero "T" false false payMollie [] feeZero
     rfl rfl rfl rfl⟩

/-- `sync_outcomes` yields one entry per input payment. -/
theorem sync_outcomes_length (env : SyncEnv) (nowIso : String)
    (force dry : Bool) (excl : Payment → Bool) :
    ∀ (ps : List Payment) (db : List OrderFeeRow),
      (sync_outcomes env nowIso force dry excl ps db).length = ps.length := by
  intro ps
  induction ps with
  | nil => intro db; rfl
  | cons p rest ih =>
    intro db
    by_cases hx : excl p
    · simp [sync_outcomes, hx, ih]
    · cases hstep : sync_single_payment env nowIso force dry p db with
      | raised m => simp [sync_outcomes, hx, hstep, ih]
      | done out p2 db2 => simp [sync_outcomes, hx, hstep, ih]

/-- `sync_loop` returns one payment row per input payment. -/
theorem sync_loop_length (env : SyncEnv) (nowIso : String)
    (force dry : Bool) (excl : Payment → Bool) :
    ∀ (ps : List Payment) (db : List OrderFeeRow) (res : PSPSyncResult),
      (sync_loop env nowIso force dry excl ps db res).2.1.length
        = ps.length := by
  intro ps
  induction ps with
  | nil => intro db res; rfl
  | cons p rest ih =>
    intro db res
    by_cases hx : excl p
    · simp [sync_loop, hx, ih]
    · cases hstep : sync_single_payment env nowIso force dry p db with
      | raised m => simp [sync_loop, hx, hstep, ih]
      | done out p2 db2 => simp [sync_loop, hx, hstep, ih]

/-- Every processed payment has exactly one of the three terminal
outcomes. -/
theorem out_counts_partition (l : List (Option Outcome)) :
    outSuccessCount l + outSkipCount l + outErrorCount l
      = outProcessedCount l := by
  induction l with
  | nil => rfl
  | cons o t ih =>
    cases o with
    | none =>
      simp [outSuccessCount, outSkipCount, outErrorCount,
        outProcessedCount, List.countP_cons] at ih ⊢
      omega
    | some out =>
      cases out <;>
        (simp [outSuccessCount, outSkipCount, outErrorCount,
          outProcessedCount, List.countP_cons] at ih ⊢; omega)

/-- The processed payments are exactly those surviving the pre-filter. -/
theorem processed_eq_filter (env : SyncEnv) (nowIso : String)
    (force dry : Bool) (excl : Payment → Bool) :
    ∀ (ps : List Payment) (db : List OrderFeeRow),
      outProcessedCount (sync_outcomes env nowIso force dry excl ps db)
        = (ps.filter (fun p => !excl p)).length := by
  intro ps
  induction ps with
  | nil => intro db; rfl
  | cons p rest ih =>
    intro db
    cases hx : excl p with
    | true =>
      simp [sync_outcomes, outProcessedCount, List.countP_cons, hx,
        List.filter_cons]
      simpa [outProcessedCount] using ih db
    | false =>
      cases hstep : sync_single_payment env nowIso force dry p db with
      | raised m =>
        simp [sync_outcomes, outProcessedCount, List.countP_cons, hx,
          hstep, List.filter_cons]
        simpa [outProcessedCount] using ih db
      | done out p2 db2 =>
        simp [sync_outcomes, outProcessedCount, List.countP_cons, hx,
          hstep, List.filter_cons]
        simpa [outProcessedCount] using ih db2

/-- The result counters accumulated by the per-payment loop agree with
the per-payment outcome sequence. -/
theorem sync_loop_counts (env : SyncEnv) (nowIso : String)
    (force dry : Bool) (excl : Payment → Bool) :
    ∀ (ps : List Payment) (db : List OrderFeeRow) (res : PSPSyncResult),
      (sync_loop env nowIso force dry excl ps db res).1.total_payments
          = res.total_payments
      ∧ (sync_loop env nowIso force dry excl ps db res).1.synced_payments
          = res.synced_payments
            + outSuccessCount (sync_outcomes env nowIso force dry excl ps db)
      ∧ (sync_loop env nowIso force dry excl ps db res).1.skipped_payments
          = res.skipped_payments
            + outSkipCount (sync_outcomes env nowIso force dry excl ps db)
      ∧ (sync_loop env nowIso force dry excl ps db res).1.failed_payments
          = res.failed_payments
            + outErrorCount (sync_outcomes env nowIso force dry excl ps db)
      ∧ (sync_loop env nowIso force dry excl ps db res).1.total_fees
          = res.total_fees
            + outFees (sync_outcomes env nowIso force dry excl ps db)
      ∧ (sync_loop env nowIso force dry excl ps db res).1.errors.length
          = res.errors.length
            + outErrorCount (sync_outcomes env nowIso force dry excl ps db) := by
  intro ps
  induction ps with
  | nil =>
    intro db res
    simp [sync_loop, sync_outcomes, outSuccessCount, outSkipCount,
      outErrorCount, outFees]
  | cons p rest ih =>
    intro db res
    cases hx : excl p with
    | true =>
      obtain ⟨h1, h2, h3, h4, h5, h6⟩ := ih db res
      simp only [sync_loop, sync_outcomes, hx, if_true]
      simp only [outSuccessCount, outSkipCount, outErrorCount, outFees,
        List.countP_cons, List.map_cons, List.sum_cons] at h2 h3 h4 h5 h6 ⊢
      refine ⟨h1, ?_, ?_, ?_, ?_, ?_⟩ <;>
        simp [h2, h3, h4, h5, h6] <;> first | omega | ring
    | false =>
      cases hstep : sync_single_payment env nowIso force dry p db with
      | raised m =>
        obtain ⟨h1, h2, h3, h4, h5, h6⟩ := ih db
          (res.add_error (toString p.id) ("Unexpected error: " ++ m))
        simp only [sync_loop, sync_outcomes, hx, Bool.false_eq_true,
          if_false, hstep]
        simp only [outSuccessCount, outSkipCount, outErrorCount, outFees,
          List.countP_cons, List.map_cons, List.sum_cons,
          PSPSyncResult.add_error, List.length_append, List.length_cons,
          List.length_nil] at h1 h2 h3 h4 h5 h6 ⊢
        refine ⟨by simpa using h1, ?_, ?_, ?_, ?_, ?_⟩ <;>
          simp [h2, h3, h4, h5, h6] <;> first | omega | ring
      | done out p2 db2 =>
        cases out with
        | success f =>
          obtain ⟨h1, h2, h3, h4, h5, h6⟩ := ih db2 (res.add_success f)
          simp only [sync_loop, sync_outcomes, hx, Bool.false_eq_true,
            if_false, hstep]
          simp only [outSuccessCount, outSkipCount, outErrorCount, outFees,
            List.countP_cons, List.map_cons, List.sum_cons,
            PSPSyncResult.add_success] at h1 h2 h3 h4 h5 h6 ⊢
          refine ⟨by simpa using h1, ?_, ?_, ?_, ?_, ?_⟩ <;>
            simp [h2, h3, h4, h5, h6] <;> first | omega | ring
        | skipped r =>
          obtain ⟨h1, h2, h3, h4, h5, h6⟩ := ih db2 (res.add_skip r)
          simp only [sync_loop, sync_outcomes, hx, Bool.false_eq_true,
            if_false, hstep]
          simp only [outSuccessCount, outSkipCount, outErrorCount, outFees,
            List.countP_cons, List.map_cons, List.sum_cons,
            PSPSyncResult.add_skip] at h1 h2 h3 h4 h5 h6 ⊢
          refine ⟨by simpa using h1, ?_, ?_, ?_, ?_, ?_⟩ <;>
            simp [h2, h3, h4, h5, h6] <;> first | omega | ring
        | errored m =>
          obtain ⟨h1, h2, h3, h4, h5, h6⟩ := ih db2
            (res.add_error (toString p.id) m)
          simp only [sync_loop, sync_outcomes, hx, Bool.false_eq_true,
            if_false, hstep]
          simp only [outSuccessCount, outSkipCount, outErrorCount, outFees,
            List.countP_cons, List.map_cons, List.sum_cons,
            PSPSyncResult.add_error, List.length_append, List.length_cons,
            List.length_nil] at h1 h2 h3 h4 h5 h6 ⊢
          refine ⟨by simpa using h1, ?_, ?_, ?_, ?_, ?_⟩ <;>
            simp [h2, h3, h4, h5, h6] <;> first | omega | ring

/-- C10: every invocation of `sync_payments` gives each processed payment
exactly one terminal outcome, so the returned result satisfies
`synced + skipped + failed = total_payments`, `errors` has length
`failed_payments`, and `total_fees` is the sum of the fee amounts of the
payments counted as synced. -/
theorem sync_result_accounting (env : SyncEnv) (nowIso : String)
    (payments : List Payment) (force dry skipA : Bool)
    (db : List OrderFeeRow) :
    (sync_payments env nowIso payments force dry skipA db).1.synced_payments
        + (sync_payments env nowIso payments force dry skipA
            db).1.skipped_payments
        + (sync_payments env nowIso payments force dry skipA
            db).1.failed_payments
      = (sync_payments env nowIso payments force dry skipA
          db).1.total_payments
    ∧ (sync_payments env nowIso payments force dry skipA db).1.errors.length
      = (sync_payments env nowIso payments force dry skipA
          db).1.failed_payments
    ∧ (sync_payments env nowIso payments force dry skipA db).1.total_fees
      = outFees (sync_outcomes env nowIso force dry
          (sync_excluded skipA force db) payments db)
    ∧ (sync_payments env nowIso payments force dry skipA
          db).1.synced_payments
      = outSuccessCount (sync_outcomes env nowIso force dry
          (sync_excluded skipA force db) payments db)
    ∧ (sync_outcomes env nowIso force dry (sync_excluded skipA force db)
        payments db).length = payments.length := by
  have hc := sync_loop_counts env nowIso force dry
    (sync_excluded skipA force db) payments db
    { total_payments := (payments.filter
        (fun p => !sync_excluded skipA force db p)).length
      synced_payments := 0
      skipped_payments := 0
      failed_payments := 0
      total_fees := 0
      errors := [] }
  have hp := processed_eq_filter env nowIso force dry
    (sync_excluded skipA force db) payments db
  have hpart := out_counts_partition
    (sync_outcomes env nowIso force dry (sync_excluded skipA force db)
      payments db)
  have hlen := sync_outcomes_length env nowIso force dry
    (sync_excluded skipA force db) payments db
  obtain ⟨h1, h2, h3, h4, h5, h6⟩ := hc
  simp only [] at h1 h2 h3 h4 h5 h6
  unfold sync_payments
  refine ⟨?_, ?_, ?_, ?_, hlen⟩
  · simp only [h1, h2, h3, h4]
    simp
    omega
  · simp only [h4, h6]
    simp
  · simp only [h5]
    simp
  · simp only [h2]
    simp


/-- Pre-filtering the batch down to the non-excluded payments changes
neither the accumulated result nor the final `OrderFee` table. -/
theorem sync_loop_filter_excluded (env : SyncEnv) (nowIso : String)
    (force dry : Bool) (excl : Payment → Bool) :
    ∀ (ps : List Payment) (db : List OrderFeeRow) (res : PSPSyncResult),
      (sync_loop env nowIso force dry excl
          (ps.filter (fun p => !excl p)) db res).1
        = (sync_loop env nowIso force dry excl ps db res).1
      ∧ (sync_loop env nowIso force dry excl
          (ps.filter (fun p => !excl p)) db res).2.2
        = (sync_loop env nowIso force dry excl ps db res).2.2 := by
  intro ps
  induction ps with
  | nil => intro db res; exact ⟨rfl, rfl⟩
  | cons p rest ih =>
    intro db res
    cases hx : excl p with
    | true =>
      simp only [List.filter_cons, hx, Bool.not_true, Bool.false_eq_true,
        if_false]
      have hrec := ih db res
      simp only [sync_loop, hx, if_true]
      exact hrec
    | false =>
      simp only [List.filter_cons, hx, Bool.not_false, if_true]
      cases hstep : sync_single_payment env nowIso force dry p db with
      | raised m =>
        simp only [sync_loop, hx, Bool.false_eq_true, if_false, hstep]
        exact ih db _
      | done out p2 db2 =>
        simp only [sync_loop, hx, Bool.false_eq_true, if_false, hstep]
        exact ih db2 _

/-- A payment removed by the pre-filter is never fetched. -/
theorem not_fetched_of_excluded (env : SyncEnv) (nowIso : String)
    (force dry : Bool) (excl : Payment → Bool) :
    ∀ (ps : List Payment) (db : List OrderFeeRow) (q : Payment),
      excl q = true →
      q ∉ sync_fetched env nowIso force dry excl ps db := by
  intro ps
  induction ps with
  | nil =>
    intro db q hq hmem
    simp [sync_fetched] at hmem
  | cons p rest ih =>
    intro db q hq hmem
    cases hx : excl p with
    | true =>
      rw [show sync_fetched env nowIso force dry excl (p :: rest) db
          = sync_fetched env nowIso force dry excl rest db by
        simp [sync_fetched, hx]] at hmem
      exact ih db q hq hmem
    | false =>
      cases hstep : sync_single_payment env nowIso force dry p db with
      | raised m =>
        rw [show sync_fetched env nowIso force dry excl (p :: rest) db
            = (if p.state = PAYMENT_STATE_CONFIRMED
                  ∧ ¬(!force && syncedFlag p) then
                p :: sync_fetched env nowIso force dry excl rest db
              else sync_fetched env nowIso force dry excl rest db) by
          simp [sync_fetched, hx, hstep]] at hmem
        by_cases hg : p.state = PAYMENT_STATE_CONFIRMED
            ∧ ¬(!force && syncedFlag p)
        · rw [if_pos hg] at hmem
          rcases List.mem_cons.mp hmem with hqp | hmem2
          · rw [hqp] at hq
            rw [hq] at hx
            cases hx
          · exact ih db q hq hmem2
        · rw [if_neg hg] at hmem
          exact ih db q hq hmem
      | done out p2 db2 =>
        rw [show sync_fetched env nowIso force dry excl (p :: rest) db
            = (if p.state = PAYMENT_STATE_CONFIRMED
                  ∧ ¬(!force && syncedFlag p) then
                p :: sync_fetched env nowIso force dry excl rest db2
              else sync_fetched env nowIso force dry excl rest db2) by
          simp [sync_fetched, hx, hstep]] at hmem
        by_cases hg : p.state = PAYMENT_STATE_CONFIRMED
            ∧ ¬(!force && syncedFlag p)
        · rw [if_pos hg] at hmem
          rcases List.mem_cons.mp hmem with hqp | hmem2
          · rw [hqp] at hq
            rw [hq] at hx
            cases hx
          · exact ih db2 q hq hmem2
        · rw [if_neg hg] at hmem
          exact ih db2 q hq hmem

/-- C9: with `skip_already_synced` and without `force`, a payment whose
order already has the provider's `OrderFee` row is removed from the
batch before any per-payment processing: it is never fetched, it
contributes to no counter (the whole run behaves as if invoked on the
filtered batch), and `total_payments` counts only the remaining
payments. -/
theorem already_synced_prefilter (env : SyncEnv) (nowIso : String)
    (dry : Bool) (payments : List Payment) (db : List OrderFeeRow)
    (p : Payment) (hmem : p ∈ payments)
    (hhas : hasProviderFee db p = true) :
    (sync_payments env nowIso payments false dry true db).1
      = (sync_payments env nowIso
          (payments.filter (fun q => !hasProviderFee db q)) false dry true
          db).1
    ∧ (sync_payments env nowIso payments false dry true db).2.2
      = (sync_payments env nowIso
          (payments.filter (fun q => !hasProviderFee db q)) false dry true
          db).2.2
    ∧ (sync_payments env nowIso payments false dry true
        db).1.total_payments
      = (payments.filter (fun q => !hasProviderFee db q)).length
    ∧ p ∉ sync_fetched env nowIso false dry (sync_excluded true false db)
        payments db := by
  have hex : sync_excluded true false db = fun q => hasProviderFee db q := by
    funext q
    simp [sync_excluded]
  have hfe : (fun q => !hasProviderFee db q)
      = fun q => !sync_excluded true false db q := by
    funext q
    rw [hex]
  have hfilter2 : (payments.filter
        (fun q => !sync_excluded true false db q)).filter
        (fun q => !sync_excluded true false db q)
      = payments.filter (fun q => !sync_excluded true false db q) := by
    rw [List.filter_filter]
    apply List.filter_congr
    intro q _
    simp
  have hloop := sync_loop_filter_excluded env nowIso false dry
    (sync_excluded true false db) payments db
  have hcounts := sync_loop_counts env nowIso false dry
    (sync_excluded true false db) payments db
    { total_payments := (payments.filter
        (fun q => !sync_excluded true false db q)).length
      synced_payments := 0
      skipped_payments := 0
      failed_payments := 0
      total_fees := 0
      errors := [] }
  refine ⟨?_, ?_, ?_, ?_⟩
  · unfold sync_payments
    rw [hfe, hfilter2]
    exact (hloop _).1.symm
  · unfold sync_payments
    rw [hfe, hfilter2]
    exact (hloop _).2.symm
  · unfold sync_payments
    rw [hfe]
    exact hcounts.1
  · apply not_fetched_of_excluded
    rw [hex]
    exact hhas

/-- Witness for C9: a one-payment batch whose single payment already has
its provider fee row is entirely filtered out. -/
theorem already_synced_prefilter_witness :
    payMollie ∈ [payMollie]
    ∧ hasProviderFee dbWithMollieFee payMollie = true
    ∧ (sync_payments envFeeFive "T" [payMollie] false false true
        dbWithMollieFee).1.total_payments
      = ([payMollie].filter
          (fun q => !hasProviderFee dbWithMollieFee q)).length
    ∧ payMollie ∉ sync_fetched envFeeFive "T" false false
        (sync_excluded true false dbWithMollieFee) [payMollie]
        dbWithMollieFee :=
  ⟨List.mem_singleton.mpr rfl, by decide,
   (already_synced_prefilter envFeeFive "T" false [payMollie]
     dbWithMollieFee payMollie (List.mem_singleton.mpr rfl)
     (by decide)).2.2.1,
   (already_synced_prefilter envFeeFive "T" false [payMollie]
     dbWithMollieFee payMollie (List.mem_singleton.mpr rfl)
     (by decide)).2.2.2⟩


/-- With `dry_run = false` the decision ladder never takes the dry-run
branch. -/
theorem decision_not_dry (env : SyncEnv) (force : Bool) (p : Payment)
    (f : ℚ) : sync_decision env force false p ≠ .successDry f := by
  intro h
  unfold sync_decision at h
  by_cases h1 : p.state ≠ PAYMENT_STATE_CONFIRMED
  · rw [if_pos h1] at h
    exact SyncDecision.noConfusion h
  · rw [if_neg h1] at h
    by_cases h2 : (!force && syncedFlag p) = true
    · rw [if_pos h2] at h
      exact SyncDecision.noConfusion h
    · rw [if_neg h2] at h
      cases hf : fetch_psp_data env p with
      | raised m => rw [hf] at h; exact SyncDecision.noConfusion h
      | skip r => rw [hf] at h; exact SyncDecision.noConfusion h
      | failed => rw [hf] at h; exact SyncDecision.noConfusion h
      | ok fd =>
        rw [hf] at h
        by_cases h3 : fd.amount_fee = 0 <;> simp [h3] at h

/-- A payment that reaches the materialisation branch is confirmed. -/
theorem decision_write_state (env : SyncEnv) (force dry : Bool)
    (p : Payment) (fd : FeeData)
    (h : sync_decision env force dry p = .successWrite fd) :
    p.state = PAYMENT_STATE_CONFIRMED := by
  by_cases h1 : p.state = PAYMENT_STATE_CONFIRMED
  · exact h1
  · unfold sync_decision at h
    rw [if_pos h1] at h
    exact SyncDecision.noConfusion h

/-- After a successful materialisation wrote the `psp_fees` annotation
(with a nonempty `synced_at`), re-processing the payment without `force`
skips it as already synced. -/
theorem decision_after_write (env env2 : SyncEnv) (nowIso : String)
    (p : Payment) (fd : FeeData) (hnow : nowIso ≠ "")
    (h : sync_decision env false false p = .successWrite fd) :
    sync_decision env2 false false (update_payment_info_data nowIso p fd)
      = .skipR ("Payment " ++ toString p.id ++ " already synced") := by
  have hstate : p.state = PAYMENT_STATE_CONFIRMED :=
    decision_write_state env false false p fd h
  have hflag : syncedFlag (update_payment_info_data nowIso p fd) = true := by
    simp [syncedFlag, update_payment_info_data]
    exact hnow
  unfold sync_decision
  rw [if_neg (by
    show ¬(update_payment_info_data nowIso p fd).state
        ≠ PAYMENT_STATE_CONFIRMED
    simp [update_payment_info_data, hstate])]
  rw [if_pos (by simp [hflag])]
  rfl

/-- `update_first` does not change `any q` when the update preserves
`q`. -/
theorem any_update_first (m : OrderFeeRow → Bool)
    (f : OrderFeeRow → OrderFeeRow) (q : OrderFeeRow → Bool)
    (hq : ∀ r, q (f r) = q r) (l : List OrderFeeRow) :
    (update_first m f l).any q = l.any q := by
  induction l with
  | nil => rfl
  | cons x xs ih =>
    unfold update_first
    by_cases hx : m x <;> simp [hx, ih, hq]

/-- The upsert never removes an existing provider-fee row. -/
theorem hasProviderFee_create_or_update (db : List OrderFeeRow)
    (p q : Payment) (fd : FeeData)
    (h : hasProviderFee db q = true) :
    hasProviderFee (create_or_update_order_fee db p fd) q = true := by
  unfold hasProviderFee at h ⊢
  cases hfind : db.find? (fee_matches p.order (p.provider ++ "_fee")) with
  | some r =>
    have hdb2 : create_or_update_order_fee db p fd
        = update_first (fee_matches p.order (p.provider ++ "_fee"))
            (fun r => { r with
              value := fd.amount_fee
              description :=
                order_fee_description p.provider fd.fee_details_text }) db := by
      unfold create_or_update_order_fee
      rw [hfind]
    rw [hdb2, any_update_first
      (fee_matches p.order (p.provider ++ "_fee"))
      (fun r => { r with
          value := fd.amount_fee
          description :=
            order_fee_description p.provider fd.fee_details_text })
      (fee_matches q.order (q.provider ++ "_fee")) (fun _ => rfl) db]
    exact h
  | none =>
    have hdb2 : create_or_update_order_fee db p fd
        = db ++ [⟨p.order, FEE_TYPE_PAYMENT, p.provider ++ "_fee",
            order_fee_description p.provider fd.fee_details_text,
            fd.amount_fee, 0, 0⟩] := by
      unfold create_or_update_order_fee
      rw [hfind]
    rw [hdb2, List.any_append]
    simp [h]

/-- One sync step never removes an existing provider-fee row. -/
theorem hasProviderFee_step (env : SyncEnv) (nowIso : String)
    (force dry : Bool) (p : Payment) (db : List OrderFeeRow)
    (out : Outcome) (p2 : Payment) (db2 : List OrderFeeRow)
    (h : sync_single_payment env nowIso force dry p db = .done out p2 db2)
    (q : Payment) (hq : hasProviderFee db q = true) :
    hasProviderFee db2 q = true := by
  unfold sync_single_payment at h
  cases hd : sync_decision env force dry p <;> rw [hd] at h
  case raised m => exact SyncStep.noConfusion h
  case skipR r =>
    injection h with h1 h2 h3
    rw [← h3]
    exact hq
  case errorR m =>
    injection h with h1 h2 h3
    rw [← h3]
    exact hq
  case successDry f =>
    injection h with h1 h2 h3
    rw [← h3]
    exact hq
  case successWrite fd =>
    injection h with h1 h2 h3
    rw [← h3]
    exact hasProviderFee_create_or_update db p q fd hq

/-- The whole loop never removes an existing provider-fee row. -/
theorem hasProviderFee_loop (env : SyncEnv) (nowIso : String)
    (force dry : Bool) (excl : Payment → Bool) :
    ∀ (ps : List Payment) (db : List OrderFeeRow) (res : PSPSyncResult)
      (q : Payment), hasProviderFee db q = true →
      hasProviderFee (sync_loop env nowIso force dry excl ps db res).2.2 q
        = true := by
  intro ps
  induction ps with
  | nil => intro db res q hq; exact hq
  | cons p rest ih =>
    intro db res q hq
    cases hx : excl p with
    | true =>
      simp only [sync_loop, hx, if_true]
      exact ih db res q hq
    | false =>
      cases hstep : sync_single_payment env nowIso force dry p db with
      | raised m =>
        simp only [sync_loop, hx, Bool.false_eq_true, if_false, hstep]
        exact ih db _ q hq
      | done out p2 db2 =>
        simp only [sync_loop, hx, Bool.false_eq_true, if_false, hstep]
        exact ih db2 _ q
          (hasProviderFee_step env nowIso force dry p db out p2 db2 hstep
            q hq)


/-- Re-running the loop (without `force`, not a dry run) over the
payments produced by a first run changes neither the payment rows nor
the `OrderFee` table, for any exclusion predicate covering at least the
payments excluded the first time. -/
theorem second_pass_frozen (env : SyncEnv) (nowIso : String)
    (hnow : nowIso ≠ "") (excl1 excl2 : Payment → Bool)
    (himp : ∀ q, excl1 q = true → excl2 q = true) :
    ∀ (ps : List Payment) (db D : List OrderFeeRow)
      (res res2 : PSPSyncResult),
      (sync_loop env nowIso false false excl2
          (sync_loop env nowIso false false excl1 ps db res).2.1 D
          res2).2.1
        = (sync_loop env nowIso false false excl1 ps db res).2.1
      ∧ (sync_loop env nowIso false false excl2
          (sync_loop env nowIso false false excl1 ps db res).2.1 D
          res2).2.2 = D := by
  intro ps
  induction ps with
  | nil => intro db D res res2; exact ⟨rfl, rfl⟩
  | cons p rest ih =>
    intro db D res res2
    cases hx1 : excl1 p with
    | true =>
      have hx2 := himp p hx1
      simp only [sync_loop, hx1, if_true]
      simp only [sync_loop, hx2, if_true]
      refine ⟨?_, (ih db D res res2).2⟩
      rw [(ih db D res res2).1]
    | false =>
      cases hd : sync_decision env false false p with
      | raised m =>
        simp only [sync_loop, hx1, Bool.false_eq_true, if_false,
          sync_single_payment, hd]
        cases hx2 : excl2 p with
        | true =>
          simp only [sync_loop, hx2, if_true]
          refine ⟨?_, (ih db D _ res2).2⟩
          rw [(ih db D _ res2).1]
        | false =>
          simp only [sync_loop, hx2, Bool.false_eq_true, if_false,
            sync_single_payment, hd]
          refine ⟨?_, (ih db D _ _).2⟩
          rw [(ih db D _ _).1]
      | skipR r =>
        simp only [sync_loop, hx1, Bool.false_eq_true, if_false,
          sync_single_payment, hd]
        cases hx2 : excl2 p with
        | true =>
          simp only [sync_loop, hx2, if_true]
          refine ⟨?_, (ih db D _ res2).2⟩
          rw [(ih db D _ res2).1]
        | false =>
          simp only [sync_loop, hx2, Bool.false_eq_true, if_false,
            sync_single_payment, hd]
          refine ⟨?_, (ih db D _ _).2⟩
          rw [(ih db D _ _).1]
      | errorR m =>
        simp only [sync_loop, hx1, Bool.false_eq_true, if_false,
          sync_single_payment, hd]
        cases hx2 : excl2 p with
        | true =>
          simp only [sync_loop, hx2, if_true]
          refine ⟨?_, (ih db D _ res2).2⟩
          rw [(ih db D _ res2).1]
        | false =>
          simp only [sync_loop, hx2, Bool.false_eq_true, if_false,
            sync_single_payment, hd]
          refine ⟨?_, (ih db D _ _).2⟩
          rw [(ih db D _ _).1]
      | successDry f =>
        exact absurd hd (decision_not_dry env false p f)
      | successWrite fd =>
        simp only [sync_loop, hx1, Bool.false_eq_true, if_false,
          sync_single_payment, hd]
        cases hx2 : excl2 (update_payment_info_data nowIso p fd) with
        | true =>
          simp only [sync_loop, hx2, if_true]
          refine ⟨?_, (ih (create_or_update_order_fee db p fd) D _
            res2).2⟩
          rw [(ih (create_or_update_order_fee db p fd) D _ res2).1]
        | false =>
          have hd2 := decision_after_write env env nowIso p fd hnow hd
          simp only [sync_loop, hx2, Bool.false_eq_true, if_false,
            sync_single_payment, hd2]
          refine ⟨?_, (ih (create_or_update_order_fee db p fd) D _ _).2⟩
          rw [(ih (create_or_update_order_fee db p fd) D _ _).1]


/-- With no pre-filtering, the outcome a second identical run records for
each payment is `alreadySyncedTransform` of its first-run outcome: synced
payments are reported "already synced", every other outcome repeats. -/
theorem second_pass_outcomes (env : SyncEnv) (nowIso : String)
    (hnow : nowIso ≠ "") (excl1 excl2 : Payment → Bool)
    (hx1 : ∀ q, excl1 q = false) (hx2 : ∀ q, excl2 q = false) :
    ∀ (ps : List Payment) (db D : List OrderFeeRow) (res : PSPSyncResult),
      sync_outcomes env nowIso false false excl2
          (sync_loop env nowIso false false excl1 ps db res).2.1 D
        = ((sync_loop env nowIso false false excl1 ps db res).2.1.zip
            (sync_outcomes env nowIso false false excl1 ps db)).map
            alreadySyncedTransform := by
  intro ps
  induction ps with
  | nil => intro db D res; rfl
  | cons p rest ih =>
    intro db D res
    cases hd : sync_decision env false false p with
    | raised m =>
      simp only [sync_loop, sync_outcomes, hx1 p, Bool.false_eq_true,
        if_false, sync_single_payment, hd]
      simp only [sync_outcomes, hx2 p, Bool.false_eq_true, if_false,
        sync_single_payment, hd, List.zip_cons_cons, List.map_cons,
        alreadySyncedTransform]
      rw [ih db D _]
    | skipR r =>
      simp only [sync_loop, sync_outcomes, hx1 p, Bool.false_eq_true,
        if_false, sync_single_payment, hd]
      simp only [sync_outcomes, hx2 p, Bool.false_eq_true, if_false,
        sync_single_payment, hd, List.zip_cons_cons, List.map_cons,
        alreadySyncedTransform]
      rw [ih db D _]
    | errorR m =>
      simp only [sync_loop, sync_outcomes, hx1 p, Bool.false_eq_true,
        if_false, sync_single_payment, hd]
      simp only [sync_outcomes, hx2 p, Bool.false_eq_true, if_false,
        sync_single_payment, hd, List.zip_cons_cons, List.map_cons,
        alreadySyncedTransform]
      rw [ih db D _]
    | successDry f =>
      exact absurd hd (decision_not_dry env false p f)
    | successWrite fd =>
      have hd2 := decision_after_write env env nowIso p fd hnow hd
      simp only [sync_loop, sync_outcomes, hx1 p, Bool.false_eq_true,
        if_false, sync_single_payment, hd]
      simp only [sync_outcomes,
        hx2 (update_payment_info_data nowIso p fd), Bool.false_eq_true,
        if_false, sync_single_payment, hd2, List.zip_cons_cons,
        List.map_cons, alreadySyncedTransform]
      rw [ih (create_or_update_order_fee db p fd) D _]
      rfl


/-- Counting outcomes through `alreadySyncedTransform`: successes become
skips, nothing else changes. -/
theorem transform_counts (z : List (Payment × Option Outcome)) :
    outSuccessCount (z.map alreadySyncedTransform) = 0
    ∧ outSkipCount (z.map alreadySyncedTransform)
      = outSuccessCount (z.map Prod.snd) + outSkipCount (z.map Prod.snd)
    ∧ outErrorCount (z.map alreadySyncedTransform)
      = outErrorCount (z.map Prod.snd) := by
  induction z with
  | nil => exact ⟨rfl, rfl, rfl⟩
  | cons x t ih =>
    obtain ⟨x1, x2⟩ := x
    cases x2 with
    | none =>
      simp only [List.map_cons, alreadySyncedTransform, outSuccessCount,
        outSkipCount, outErrorCount, List.countP_cons] at ih ⊢
      refine ⟨by simp [ih.1], by simp [ih.2.1] <;> omega, by simp [ih.2.2]⟩
    | some out =>
      cases out <;>
        (simp only [List.map_cons, alreadySyncedTransform, outSuccessCount,
          outSkipCount, outErrorCount, List.countP_cons] at ih ⊢;
         refine ⟨by simp [ih.1], by simp [ih.2.1] <;> omega,
           by simp [ih.2.2]⟩)

/-- C3 (amended): without `force` (and not a dry run), a second
`sync_payments` call on the payment set produced by a first call changes
no `OrderFee` row and no payment annotation; with the default
`skip_already_synced` the payments synced by the first call are excluded
from the second batch beforehand, while with
`skip_already_synced = false` the second call reports each payment
synced by the first call as `Skipped("Payment {id} already synced")`
(every other first-call outcome repeats), so the second call counts zero
synced payments, `synced₁ + skipped₁` skips and the same failures. -/
theorem sync_twice_idempotent (env : SyncEnv) (nowIso : String)
    (payments : List Payment) (skipA : Bool) (db : List OrderFeeRow)
    (hnow : nowIso ≠ "") :
    (sync_payments env nowIso
        (sync_payments env nowIso payments false false skipA db).2.1
        false false skipA
        (sync_payments env nowIso payments false false skipA db).2.2).2.2
      = (sync_payments env nowIso payments false false skipA db).2.2
    ∧ (sync_payments env nowIso
        (sync_payments env nowIso payments false false skipA db).2.1
        false false skipA
        (sync_payments env nowIso payments false false skipA db).2.2).2.1
      = (sync_payments env nowIso payments false false skipA db).2.1
    ∧ (skipA = false →
        sync_outcomes env nowIso false false
            (sync_excluded skipA false
              (sync_payments env nowIso payments false false skipA
                db).2.2)
            (sync_payments env nowIso payments false false skipA db).2.1
            (sync_payments env nowIso payments false false skipA db).2.2
          = ((sync_payments env nowIso payments false false skipA
                db).2.1.zip
              (sync_outcomes env nowIso false false
                (sync_excluded skipA false db) payments db)).map
              alreadySyncedTransform
        ∧ (sync_payments env nowIso
            (sync_payments env nowIso payments false false skipA db).2.1
            false false skipA
            (sync_payments env nowIso payments false false skipA
              db).2.2).1.synced_payments = 0
        ∧ (sync_payments env nowIso
            (sync_payments env nowIso payments false false skipA db).2.1
            false false skipA
            (sync_payments env nowIso payments false false skipA
              db).2.2).1.skipped_payments
          = (sync_payments env nowIso payments false false skipA
              db).1.synced_payments
            + (sync_payments env nowIso payments false false skipA
                db).1.skipped_payments
        ∧ (sync_payments env nowIso
            (sync_payments env nowIso payments false false skipA db).2.1
            false false skipA
            (sync_payments env nowIso payments false false skipA
              db).2.2).1.failed_payments
          = (sync_payments env nowIso payments false false skipA
              db).1.failed_payments) := by
  have himp : ∀ q, sync_excluded skipA false db q = true →
      sync_excluded skipA false
        (sync_payments env nowIso payments false false skipA db).2.2 q
        = true := by
    intro q hq
    simp only [sync_excluded, Bool.and_eq_true] at hq ⊢
    refine ⟨hq.1, ?_⟩
    exact hasProviderFee_loop env nowIso false false
      (sync_excluded skipA false db) payments db _ q hq.2
  have hfrozen := second_pass_frozen env nowIso hnow
    (sync_excluded skipA false db)
    (sync_excluded skipA false
      (sync_payments env nowIso payments false false skipA db).2.2)
    himp payments db
  refine ⟨(hfrozen _ _ _).2, (hfrozen _ _ _).1, ?_⟩
  intro hskip
  subst hskip
  have hx1 : ∀ q, sync_excluded false false db q = false := by
    intro q
    simp [sync_excluded]
  have hx2 : ∀ q, sync_excluded false false
      (sync_payments env nowIso payments false false false db).2.2 q
      = false := by
    intro q
    simp [sync_excluded]
  have houts := second_pass_outcomes env nowIso hnow
    (sync_excluded false false db)
    (sync_excluded false false
      (sync_payments env nowIso payments false false false db).2.2)
    hx1 hx2 payments db
    (sync_payments env nowIso payments false false false db).2.2
  refine ⟨houts _, ?_, ?_, ?_⟩ <;>
  · have hc2 := sync_loop_counts env nowIso false false
      (sync_excluded false false
        (sync_payments env nowIso payments false false false db).2.2)
      (sync_payments env nowIso payments false false false db).2.1
      (sync_payments env nowIso payments false false false db).2.2
      { total_payments := ((sync_payments env nowIso payments false false
          false db).2.1.filter (fun p => !sync_excluded false false
            (sync_payments env nowIso payments false false false
              db).2.2 p)).length
        synced_payments := 0
        skipped_payments := 0
        failed_payments := 0
        total_fees := 0
        errors := [] }
    have hc1 := sync_loop_counts env nowIso false false
      (sync_excluded false false db) payments db
      { total_payments := (payments.filter
          (fun p => !sync_excluded false false db p)).length
        synced_payments := 0
        skipped_payments := 0
        failed_payments := 0
        total_fees := 0
        errors := [] }
    have hlen1 : (sync_outcomes env nowIso false false
        (sync_excluded false false db) payments db).length
        ≤ (sync_payments env nowIso payments false false false
            db).2.1.length := by
      rw [sync_outcomes_length]
      exact le_of_eq (sync_loop_length env nowIso false false
        (sync_excluded false false db) payments db _).symm
    have hsnd := List.map_snd_zip
      (sync_payments env nowIso payments false false false db).2.1
      (sync_outcomes env nowIso false false
        (sync_excluded false false db) payments db) hlen1
    have ht := transform_counts
      ((sync_payments env nowIso payments false false false db).2.1.zip
        (sync_outcomes env nowIso false false
          (sync_excluded false false db) payments db))
    rw [hsnd] at ht
    have hout2 := houts
      { total_payments := (payments.filter
          (fun p => !sync_excluded false false db p)).length
        synced_payments := 0
        skipped_payments := 0
        failed_payments := 0
        total_fees := 0
        errors := [] }
    unfold sync_payments
    unfold sync_payments at hout2 hc2 ht
    rw [hout2] at hc2
    simp only [] at hc1 hc2
    omega


/-- Counterexample for C3 as stated: after a first default call syncs the
payment, a second default call (with `skip_already_synced = true`, the
default) removes it from the batch beforehand — the second result counts
zero payments and zero skips, so the payment is not reported as
`Skipped("already synced")`. -/
theorem sync_twice_default_cex :
    (sync_payments envFeeFive "T" [payMollie] false false true
        []).1.synced_payments = 1
    ∧ (sync_payments envFeeFive "T"
        (sync_payments envFeeFive "T" [payMollie] false false true
          []).2.1
        false false true
        (sync_payments envFeeFive "T" [payMollie] false false true
          []).2.2).1.skipped_payments = 0
    ∧ (sync_payments envFeeFive "T"
        (sync_payments envFeeFive "T" [payMollie] false false true
          []).2.1
        false false true
        (sync_payments envFeeFive "T" [payMollie] false false true
          []).2.2).1.total_payments = 0
    ∧ (sync_payments envFeeFive "T"
        (sync_payments envFeeFive "T" [payMollie] false false true
          []).2.1
        false false true
        (sync_payments envFeeFive "T" [payMollie] false false true
          []).2.2).2.2
      = (sync_payments envFeeFive "T" [payMollie] false false true
          []).2.2 :=
  ⟨rfl, rfl, rfl, rfl⟩

/-- Witness for C3: a one-payment batch, synced on the first call, leaves
the fee table unchanged on the second call. -/
theorem sync_twice_idempotent_witness :
    ("T" : String) ≠ ""
    ∧ (sync_payments envFeeFive "T"
        (sync_payments envFeeFive "T" [payMollie] false false false
          []).2.1
        false false false
        (sync_payments envFeeFive "T" [payMollie] false false false
          []).2.2).2.2
      = (sync_payments envFeeFive "T" [payMollie] false false false
          []).2.2 :=
  ⟨by decide,
   (sync_twice_idempotent envFeeFive "T" [payMollie] false []
     (by decide)).1⟩

end PretixFees